import Mathlib

/-!
# Verification of the scrop assembler (`src/assembler/main.py`)

Shallow embedding of the immediate-value encoder (`parse_immediate`,
`serialize_immediate`) and the line assembler (`main`) of
`src/assembler/main.py`, together with theorems settling the frozen claims
about its specification.

Modelling conventions:
* Python `bytes` values are `List Nat` with every element below 256.
* Python `int` is `Int` (unbounded, signed); `str` is Lean `String`, analysed
  through its character list.
* A raised Python exception is an `Except` error carrying enough structure to
  distinguish the distinct error sites/messages of the source.
* Python builtins (`int(s, base)`, `chr`, `str.split`, `str.strip`,
  `int.to_bytes`) are modelled for ASCII input, which is the domain the claims
  quantify over; Python additionally accepts some non-ASCII digit and
  whitespace characters in those builtins.
-/

namespace Scrop

deriving instance DecidableEq for Except

/-- The distinct exception sites of `src/assembler/main.py`.
Python raises `ValueError` / `OverflowError`; the constructors record which
`raise` (or which failing builtin) produced the error, mirroring the distinct
messages. -/
inductive PyError where
  /-- `ValueError("Integer {result} out of range")` in `parse_immediate`. -/
  | rangeError : PyError
  /-- `ValueError(f"Couldn't parse character constant {s} ...")`. -/
  | formatCharConst (token : String) : PyError
  /-- `ValueError(f"Couldn't parse immediate {s}")`. -/
  | formatImmediate (token : String) : PyError
  /-- `ValueError` raised by the builtin `int(lit, base)` on a bad literal. -/
  | intLiteral (base : Nat) (lit : String) : PyError
  /-- `ValueError` raised by the builtin `chr` on an out-of-range codepoint. -/
  | chrValue : PyError
  /-- `OverflowError` raised by `int.to_bytes` (negative or too large). -/
  | overflow : PyError
  /-- `ValueError(f"Couldn't parse line {line}")` in `main`. -/
  | unrecognized (line : String) : PyError
deriving DecidableEq, Repr

/-- The type `Immediate = int | bool | Char | None | Unspecified` of the
source.  Python's `bool` is a subtype of `int`; the source always
distinguishes the two with an `isinstance(v, bool)` check placed before the
`isinstance(v, int)` check, so disjoint constructors model it faithfully.
`Char` holds a one-character string, represented by its codepoint. -/
inductive Immediate where
  | int (n : Int)
  | bool (b : Bool)
  | char (c : Nat)
  | null
  | unspecified
deriving DecidableEq, Repr

/-- Little-endian bytes of `n.to_bytes(8, "little")` (for `0 ≤ n < 2^64`). -/
def toLE8 (n : Nat) : List Nat :=
  [n % 256, n / 256 % 256, n / 256 ^ 2 % 256, n / 256 ^ 3 % 256,
   n / 256 ^ 4 % 256, n / 256 ^ 5 % 256, n / 256 ^ 6 % 256, n / 256 ^ 7 % 256]

/-- Read back an 8-byte little-endian list as the 64-bit word it denotes. -/
def fromLE8 (bs : List Nat) : Nat :=
  match bs with
  | [b0, b1, b2, b3, b4, b5, b6, b7] =>
      b0 + 256 * b1 + 256 ^ 2 * b2 + 256 ^ 3 * b3 + 256 ^ 4 * b4 +
        256 ^ 5 * b5 + 256 ^ 6 * b6 + 256 ^ 7 * b7
  | _ => 0

/-- `str.isascii` for one character: codepoint below 128. -/
def isAsciiChar (c : Char) : Bool := c.toNat ≤ 127

/-- An ASCII decimal digit.  For an ASCII string, `s.isnumeric()` holds
exactly when `s` is nonempty and every character is such a digit. -/
def isAsciiDigit (c : Char) : Bool := 48 ≤ c.toNat && c.toNat ≤ 57

/-- ASCII characters treated as whitespace by Python's `str.split`,
`str.strip` and `int(str)`:  space, `\t`, `\n`, `\v`, `\f`, `\r` and the
separator control characters `\x1c`–`\x1f`. -/
def pySpace (c : Char) : Bool :=
  c.toNat = 32 || c.toNat = 9 || c.toNat = 10 || c.toNat = 11 ||
    c.toNat = 12 || c.toNat = 13 || (28 ≤ c.toNat && c.toNat ≤ 31)

/-- Value of one digit character in the given base (as accepted by
Python's `int(s, base)`): `0`–`9`, `a`–`z`, `A`–`Z`, below the base. -/
def digitVal (base : Nat) (c : Char) : Option Nat :=
  if 48 ≤ c.toNat ∧ c.toNat ≤ 57 ∧ c.toNat - 48 < base then some (c.toNat - 48)
  else if 97 ≤ c.toNat ∧ c.toNat ≤ 122 ∧ c.toNat - 87 < base then some (c.toNat - 87)
  else if 65 ≤ c.toNat ∧ c.toNat ≤ 90 ∧ c.toNat - 55 < base then some (c.toNat - 55)
  else none

/-- Digits after the first one in a Python integer literal: a single
underscore may appear between two digits, never leading, trailing or
doubled. -/
def digitsLoop (base : Nat) : List Char → Nat → Option Nat
  | [], acc => some acc
  | c :: rest, acc =>
      if c = '_' then
        match rest with
        | c2 :: rest2 =>
            match digitVal base c2 with
            | some d => digitsLoop base rest2 (acc * base + d)
            | none => none
        | [] => none
      else
        match digitVal base c with
        | some d => digitsLoop base rest (acc * base + d)
        | none => none

/-- The digit part of a Python integer literal: at least one digit, then
`digitsLoop`. -/
def pyIntDigits (base : Nat) : List Char → Option Nat
  | [] => none
  | c :: rest =>
      match digitVal base c with
      | some d => digitsLoop base rest d
      | none => none

/-- The decimal value of a digit string (specification helper used to
state what `int(s)` returns on an all-digit string). -/
def natOfDigits (cs : List Char) : Nat :=
  cs.foldl (fun a c => a * 10 + (c.toNat - 48)) 0

/-- Python `str.strip` over the ASCII whitespace set. -/
def stripSpaces (cs : List Char) : List Char :=
  ((cs.dropWhile pySpace).reverse.dropWhile pySpace).reverse

/-- The builtin `int(s, base)` on a character list: strip whitespace,
optional sign, digit run with underscore rule.  (Base-prefix forms such as
`0x..` for base 16 are accepted by Python but are irrelevant here: the
source only applies base 16 to two-character inputs, where the only
prefix-shaped string `"0x"` fails in both Python and this model.) -/
def pyIntL (base : Nat) (cs : List Char) : Except PyError Int :=
  match stripSpaces cs with
  | '+' :: rest =>
      match pyIntDigits base rest with
      | some n => .ok (n : Int)
      | none => .error (.intLiteral base (String.mk cs))
  | '-' :: rest =>
      match pyIntDigits base rest with
      | some n => .ok (-(n : Int))
      | none => .error (.intLiteral base (String.mk cs))
  | rest =>
      match pyIntDigits base rest with
      | some n => .ok (n : Int)
      | none => .error (.intLiteral base (String.mk cs))

/-- The builtin `chr`: accepts codepoints `0 ≤ n ≤ 0x10FFFF`.  The `Char`
dataclass wraps the resulting one-character string; we keep the codepoint. -/
def pyChr (n : Int) : Except PyError Nat :=
  if 0 ≤ n ∧ n ≤ 0x10FFFF then .ok n.toNat else .error .chrValue

/-- `parse_immediate` of the source, on the character list of the token.

Branches in source order: the `match` on the literal tokens, the
`isnumeric/isascii` digit branch with its range check, the `CHAR_PREFIX`
(`"#\\"`) branch (one ASCII character, or `x` plus two characters fed to
`int(_, 16)` and `chr`), and the final failure. -/
def parse_immediate0 (cs : List Char) : Except PyError Immediate :=
  if cs = ['#', 'f'] ∨ cs = ['#', 'F'] then .ok (.bool false)
  else if cs = ['#', 't'] ∨ cs = ['#', 'T'] then .ok (.bool true)
  else if cs = ['N', 'U', 'L', 'L'] then .ok .null
  else if cs = ['U', 'N', 'S', 'P', 'E', 'C', 'I', 'F', 'I', 'E', 'D'] then .ok .unspecified
  else if cs ≠ [] ∧ cs.all isAsciiDigit then
    match pyIntL 10 cs with
    | .ok result =>
        if result < 0 ∨ result > 2 ^ 62 - 1 then .error .rangeError
        else .ok (.int result)
    | .error e => .error e
  else
    match cs with
    | '#' :: '\\' :: char_data =>
        if char_data.length = 1 ∧ char_data.all isAsciiChar then
          .ok (.char ((char_data.headD ' ').toNat))
        else if char_data.length = 3 ∧ char_data.headD ' ' = 'x' ∧
            char_data.all isAsciiChar then
          match pyIntL 16 (char_data.drop 1) with
          | .ok n =>
              match pyChr n with
              | .ok cp => .ok (.char cp)
              | .error e => .error e
          | .error e => .error e
        else .error (.formatCharConst (String.mk cs))
    | _ => .error (.formatImmediate (String.mk cs))

/-- `parse_immediate` on a string token. -/
def parse_immediate (s : String) : Except PyError Immediate :=
  parse_immediate0 s.toList

/-- The 64-bit word each variant serializes to, before `to_bytes`:
booleans are `0b10011111` / `0b00011111`, an integer is `v << 2`, a
character is `(ord(c) << 8) | 0b00001111`, `None` is `0b00101111`,
`Unspecified` is `0xFFFFFFFFFFFFFFFF`. -/
def serialize_word : Immediate → Int
  | .bool b => if b then 0b10011111 else 0b00011111
  | .int n => n * 2 ^ 2
  | .char c => (((c <<< 8) ||| 0b00001111 : Nat) : Int)
  | .null => 0b00101111
  | .unspecified => 0xFFFFFFFFFFFFFFFF

/-- `n.to_bytes(8, "little")`: 8 little-endian bytes, `OverflowError` when
`n` is negative or does not fit in 64 bits. -/
def intToBytes8 (n : Int) : Except PyError (List Nat) :=
  if 0 ≤ n ∧ n < 2 ^ 64 then .ok (toLE8 n.toNat) else .error .overflow

/-- `serialize_immediate` of the source: each `isinstance` branch computes
its word and calls `to_bytes(8, "little")`.  The `assert False` fallthrough
is unreachable: the inductive is closed over exactly the five variants. -/
def serialize_immediate (v : Immediate) : Except PyError (List Nat) :=
  intToBytes8 (serialize_word v)

/-- `DEFAULT_IMMEDIATE = 0x0.to_bytes(8, "little")`. -/
def DEFAULT_IMMEDIATE : List Nat := toLE8 0

/-- One raw-integer-operand instruction of `main`:
`immediate = int(v).to_bytes(8, "little")`, emitted after the 8 opcode
bytes. -/
def rawIns (opcode : Nat) (v : String) : Except PyError (List Nat) :=
  match pyIntL 10 v.toList with
  | .ok n =>
      match intToBytes8 n with
      | .ok b => .ok (toLE8 opcode ++ b)
      | .error e => .error e
  | .error e => .error e

/-- One zero-operand instruction of `main`: opcode plus `DEFAULT_IMMEDIATE`. -/
def noOperand (opcode : Nat) : List Nat := toLE8 opcode ++ DEFAULT_IMMEDIATE

/-- The one-token (zero-operand) arms of the `match line.split()` dispatch
of `main`, in source order. -/
def asmTok1 (line m : String) : Except PyError (List Nat) :=
  if m = "FORGET" then .ok (noOperand 0x49E7000)
  else if m = "ADD1" then .ok (noOperand 0xADD1000)
  else if m = "SUB1" then .ok (noOperand 0x50B1000)
  else if m = "ZEROP" then .ok (noOperand 0xEEEE000)
  else if m = "STRINGREF" then .ok (noOperand 0x571E000)
  else if m = "STRINGSET" then .ok (noOperand 0x5715000)
  else if m = "INTEGERP" then .ok (noOperand 0x1234000)
  else if m = "BOOLEANP" then .ok (noOperand 0xB001000)
  else if m = "CHARP" then .ok (noOperand 0xCACA000)
  else if m = "NULLP" then .ok (noOperand 0x4321000)
  else if m = "NOT" then .ok (noOperand 0x7777000)
  else if m = "INTTOCHAR" then .ok (noOperand 0x170C000)
  else if m = "CHARTOINT" then .ok (noOperand 0xC701000)
  else if m = "CONS" then .ok (noOperand 0xC0C0000)
  else if m = "CAR" then .ok (noOperand 0xCA00000)
  else if m = "CDR" then .ok (noOperand 0xCD00000)
  else .error (.unrecognized line)

/-- The two-token arms of the `match line.split()` dispatch of `main`, in
source order. -/
def asmTok2 (line m v : String) : Except PyError (List Nat) :=
  if m = "LOAD" then
    match parse_immediate v with
    | .ok imm =>
        match serialize_immediate imm with
        | .ok b => .ok (toLE8 0x10AD000 ++ b)
        | .error e => .error e
    | .error e => .error e
  else if m = "JUMP" then rawIns 0x70AD000 v
  else if m = "CJUMP" then rawIns 0xCA7000 v
  else if m = "GET" then rawIns 0x9E7000 v
  else if m = "ADD" then rawIns 0x0ADD000 v
  else if m = "SUB" then rawIns 0x050B000 v
  else if m = "MUL" then rawIns 0x0A55000 v
  else if m = "LT" then rawIns 0x1700000 v
  else if m = "EQ" then rawIns 0xE3E3000 v
  else if m = "EQP" then rawIns 0x3E3E000 v
  else if m = "STRING" then rawIns 0x571F000 v
  else if m = "STRINGAPPEND" then rawIns 0x571A000 v
  else if m = "FALL" then rawIns 0xFA11000 v
  else .error (.unrecognized line)

/-- The `match line.split()` dispatch of `main`, producing the 16 bytes
`opcode.to_bytes(8, "little") + immediate` written for the line, or the
error the line raises.  Every pattern of the source's `match` is a
distinct (literal mnemonic, token count) pair, so the sequential dispatch
is grouped here by token count, keeping the source's order inside each
group; the wildcard arm is `ValueError(f"Couldn't parse line {line}")`. -/
def asmToks (line : String) : List String → Except PyError (List Nat)
  | [m] => asmTok1 line m
  | [m, v] => asmTok2 line m v
  | _ => .error (.unrecognized line)

/-- Helper for Python `str.split()`: accumulate the current word (in
reverse), break on `pySpace` runs. -/
def splitAux : List Char → List Char → List (List Char)
  | [], acc => if acc = [] then [] else [acc.reverse]
  | c :: rest, acc =>
      if pySpace c then
        if acc = [] then splitAux rest [] else acc.reverse :: splitAux rest []
      else splitAux rest (c :: acc)

/-- Python `line.split()`: split on runs of whitespace, no empty words. -/
def pySplit (s : String) : List String :=
  (splitAux s.toList []).map String.mk

/-- A line is dropped by `filter(lambda l: l.strip(), ...)` exactly when it
is blank: every character is whitespace. -/
def isBlank (l : String) : Bool := l.toList.all pySpace

/-- Processing one non-blank line of `main`: split it and dispatch. -/
def asmLine (l : String) : Except PyError (List Nat) :=
  asmToks l (pySplit l)

/-- The terminator instruction `0xD0D0000.to_bytes(8, "little") +
DEFAULT_IMMEDIATE` written after the loop. -/
def terminator : List Nat := toLE8 0xD0D0000 ++ DEFAULT_IMMEDIATE

/-- The whole of `main` on the list of input lines: blank lines are
skipped; each other line's 16 bytes are written to stdout as soon as the
line is processed; the first error aborts the run (bytes already written
stay written); on full success the terminator is written last.  Returns
the bytes that reached stdout and the error that aborted the run, if
any. -/
def mainRun : List String → List Nat × Option PyError
  | [] => (terminator, none)
  | l :: ls =>
      if isBlank l then mainRun ls
      else
        match asmLine l with
        | .ok bs =>
            let r := mainRun ls
            (bs ++ r.1, r.2)
        | .error e => ([], some e)

/-- The bytes a successfully processed line contributes (`[]` for a
failing line; only used under success hypotheses). -/
def emitted (l : String) : List Nat :=
  match asmLine l with
  | .ok bs => bs
  | .error _ => []

/-- The valid immediates: integers in `[0, 2^62 - 1]` (the parser's
range), characters with a one-byte codepoint (the parser produces
codepoints ≤ 255), and the three constant variants. -/
def validImmediate : Immediate → Prop
  | .int n => 0 ≤ n ∧ n ≤ 2 ^ 62 - 1
  | .char c => c ≤ 255
  | _ => True

instance (v : Immediate) : Decidable (validImmediate v) := by
  cases v <;> (unfold validImmediate; infer_instance)

/-- Modelled from the spec: the inverse tag-dispatch rule of §4.1, which is
not part of the source (the downstream virtual machine decodes the words).
A 64-bit word is classified by its low-order tag bits: low two bits `00` →
Integer `w >> 2`; the all-ones word → Unspecified; low byte `0b00001111` →
Character `w >> 8`; low byte `0b00011111` → Boolean false; `0b10011111` →
Boolean true; `0b00101111` → Null. -/
def decode_immediate (w : Nat) : Option Immediate :=
  if w % 4 = 0 then some (.int ((w / 4 : Nat) : Int))
  else if w = 0xFFFFFFFFFFFFFFFF then some .unspecified
  else if w % 256 = 0b00001111 then some (.char (w / 256))
  else if w % 256 = 0b00011111 then some (.bool false)
  else if w % 256 = 0b10011111 then some (.bool true)
  else if w % 256 = 0b00101111 then some .null
  else none

/-- The (mnemonic, token-count) pairs accepted by the `match` in `main` —
the Mnemonic Table's name/arity part. -/
def mnemonicTable : List (String × Nat) :=
  [("LOAD", 2), ("JUMP", 2), ("CJUMP", 2), ("GET", 2), ("FORGET", 1),
   ("ADD1", 1), ("SUB1", 1), ("ADD", 2), ("SUB", 2), ("MUL", 2),
   ("LT", 2), ("EQ", 2), ("EQP", 2), ("STRING", 2), ("ZEROP", 1),
   ("STRINGREF", 1), ("STRINGSET", 1), ("STRINGAPPEND", 2), ("INTEGERP", 1),
   ("BOOLEANP", 1), ("CHARP", 1), ("NULLP", 1), ("NOT", 1),
   ("INTTOCHAR", 1), ("CHARTOINT", 1), ("FALL", 2), ("CONS", 1),
   ("CAR", 1), ("CDR", 1)]

/-- The mnemonics whose operand is a raw integer (`int(v)`), with their
opcodes. -/
def rawIntTable : List (String × Nat) :=
  [("JUMP", 0x70AD000), ("CJUMP", 0xCA7000), ("GET", 0x9E7000),
   ("ADD", 0x0ADD000), ("SUB", 0x050B000), ("MUL", 0x0A55000),
   ("LT", 0x1700000), ("EQ", 0xE3E3000), ("EQP", 0x3E3E000),
   ("STRING", 0x571F000), ("STRINGAPPEND", 0x571A000), ("FALL", 0xFA11000)]

/-! ## Byte-level helper lemmas -/

theorem toLE8_length (n : Nat) : (toLE8 n).length = 8 := rfl

theorem fromLE8_toLE8 (n : Nat) (h : n < 2 ^ 64) : fromLE8 (toLE8 n) = n := by
  simp only [toLE8, fromLE8]
  omega

theorem char_word_eq (c : Nat) : (c <<< 8) ||| 15 = 256 * c + 15 := by
  have h : (2 : Nat) ^ 8 * c + 15 = 2 ^ 8 * c ||| 15 :=
    Nat.mul_add_lt_is_or (by norm_num) c
  rw [Nat.shiftLeft_eq, Nat.mul_comm c (2 ^ 8), ← h]
  norm_num

theorem serialize_int (n : Int) (h0 : 0 ≤ n) (h1 : n ≤ 2 ^ 62 - 1) :
    serialize_immediate (.int n) = .ok (toLE8 (n.toNat * 4)) := by
  show intToBytes8 (n * 2 ^ 2) = _
  unfold intToBytes8
  rw [if_pos (by omega)]
  have h2 : (n * 2 ^ 2).toNat = n.toNat * 4 := by omega
  rw [h2]

theorem serialize_char (c : Nat) (h : c ≤ 255) :
    serialize_immediate (.char c) = .ok (toLE8 (256 * c + 15)) := by
  show intToBytes8 (((c <<< 8) ||| 15 : Nat) : Int) = _
  rw [char_word_eq]
  unfold intToBytes8
  rw [if_pos (by constructor <;> omega)]
  have h2 : (((256 * c + 15 : Nat) : Int)).toNat = 256 * c + 15 := by omega
  rw [h2]

/-- Round-trip core: every valid immediate serializes successfully to 8
bytes which the spec's tag-dispatch decoder maps back to the value. -/
theorem roundtrip_aux (v : Immediate) (h : validImmediate v) :
    ∃ bs, serialize_immediate v = .ok bs ∧ bs.length = 8 ∧
      decode_immediate (fromLE8 bs) = some v := by
  cases v with
  | int n =>
      obtain ⟨h0, h1⟩ := h
      refine ⟨toLE8 (n.toNat * 4), serialize_int n h0 h1, toLE8_length _, ?_⟩
      rw [fromLE8_toLE8 _ (by omega)]
      unfold decode_immediate
      rw [if_pos (by omega)]
      have h2 : (n.toNat * 4) / 4 = n.toNat := by omega
      rw [h2]
      congr 2
      omega
  | bool b =>
      cases b
      · exact ⟨toLE8 0x1F, by decide, by decide, by decide⟩
      · exact ⟨toLE8 0x9F, by decide, by decide, by decide⟩
  | char c =>
      have hc : c ≤ 255 := h
      refine ⟨toLE8 (256 * c + 15), serialize_char c hc, toLE8_length _, ?_⟩
      rw [fromLE8_toLE8 _ (by omega)]
      unfold decode_immediate
      rw [if_neg (by omega), if_neg (by omega), if_pos (by omega)]
      have h2 : (256 * c + 15) / 256 = c := by omega
      rw [h2]
  | null => exact ⟨toLE8 0x2F, by decide, by decide, by decide⟩
  | unspecified =>
      exact ⟨toLE8 0xFFFFFFFFFFFFFFFF, by decide, by decide, by decide⟩

/-- C1: For every valid Immediate Value, Serialize returns exactly 8
little-endian bytes with the fixed tagged layout: Boolean false is byte
`0b00011111` in the low byte with the remaining 7 bytes zero; Boolean true
is `0b10011111`; Integer `n` (`0 ≤ n ≤ 2^62 - 1`) is the 64-bit word
`n <<< 2`; Character `c` is the word `(c <<< 8) ||| 0b00001111`; Null is
byte `0b00101111`; Unspecified is the all-ones word. -/
theorem serialize_layout :
    serialize_immediate (.bool false) = .ok [0b00011111, 0, 0, 0, 0, 0, 0, 0] ∧
    serialize_immediate (.bool true) = .ok [0b10011111, 0, 0, 0, 0, 0, 0, 0] ∧
    serialize_immediate .null = .ok [0b00101111, 0, 0, 0, 0, 0, 0, 0] ∧
    serialize_immediate .unspecified =
      .ok [0xFF, 0xFF, 0xFF, 0xFF, 0xFF, 0xFF, 0xFF, 0xFF] ∧
    (∀ n : Nat, n ≤ 2 ^ 62 - 1 →
      serialize_immediate (.int (n : Int)) = .ok (toLE8 (n <<< 2)) ∧
      (toLE8 (n <<< 2)).length = 8) ∧
    (∀ c : Nat, c ≤ 255 →
      serialize_immediate (.char c) = .ok (toLE8 ((c <<< 8) ||| 0b00001111)) ∧
      (toLE8 ((c <<< 8) ||| 0b00001111)).length = 8) := by
  refine ⟨by decide, by decide, by decide, by decide, ?_, ?_⟩
  · intro n hn
    refine ⟨?_, toLE8_length _⟩
    have h := serialize_int (n : Int) (by omega) (by omega)
    rw [h]
    have h2 : ((n : Int)).toNat * 4 = n <<< 2 := by
      rw [Nat.shiftLeft_eq]
      omega
    rw [h2]
  · intro c hc
    refine ⟨?_, toLE8_length _⟩
    rw [serialize_char c hc, char_word_eq]

/-- C1 witness: the layout theorem applied at Integer 3 and Character 65. -/
theorem serialize_layout_witness :
    ((3 : Nat) ≤ 2 ^ 62 - 1 ∧
      serialize_immediate (.int (3 : Int)) = .ok (toLE8 (3 <<< 2))) ∧
    ((65 : Nat) ≤ 255 ∧
      serialize_immediate (.char 65) = .ok (toLE8 ((65 <<< 8) ||| 0b00001111))) :=
  ⟨⟨by decide, (serialize_layout.2.2.2.2.1 3 (by decide)).1⟩,
   ⟨by decide, (serialize_layout.2.2.2.2.2 65 (by decide)).1⟩⟩

/-- C2: for every valid Immediate Value `v`, `Serialize(v)` decoded by the
inverse tag-dispatch rule of §4.1 (read the 8 little-endian bytes as a
64-bit word, classify it by its tag bits) yields `v` back. -/
theorem serialize_roundtrip (v : Immediate) (h : validImmediate v) :
    ∃ bs, serialize_immediate v = .ok bs ∧ bs.length = 8 ∧
      decode_immediate (fromLE8 bs) = some v :=
  roundtrip_aux v h

/-- C2 witness: the round-trip theorem at the boundary integer `2^62 - 1`. -/
theorem serialize_roundtrip_witness :
    validImmediate (.int ((2 : Int) ^ 62 - 1)) ∧
    ∃ bs, serialize_immediate (.int ((2 : Int) ^ 62 - 1)) = .ok bs ∧
      bs.length = 8 ∧ decode_immediate (fromLE8 bs) = some (.int ((2 : Int) ^ 62 - 1)) :=
  ⟨by decide, serialize_roundtrip (.int ((2 : Int) ^ 62 - 1)) (by decide)⟩

/-- C10: serialization is injective on valid immediates, and in particular
the booleans serialize to the boolean tag patterns, not to the Integer
encodings of 1 and 0. -/
theorem serialize_injective :
    (∀ v1 v2 : Immediate, validImmediate v1 → validImmediate v2 →
        serialize_immediate v1 = serialize_immediate v2 → v1 = v2) ∧
    serialize_immediate (.bool true) ≠ serialize_immediate (.int 1) ∧
    serialize_immediate (.bool false) ≠ serialize_immediate (.int 0) := by
  refine ⟨?_, by decide, by decide⟩
  intro v1 v2 h1 h2 heq
  obtain ⟨bs1, hs1, _, hd1⟩ := roundtrip_aux v1 h1
  obtain ⟨bs2, hs2, _, hd2⟩ := roundtrip_aux v2 h2
  rw [hs1, hs2] at heq
  have hbs : bs1 = bs2 := by injection heq
  rw [hbs] at hd1
  rw [hd1] at hd2
  injection hd2

/-- C10 witness: injectivity applied at Integer 7 against itself. -/
theorem serialize_injective_witness :
    validImmediate (.int (7 : Int)) ∧ Immediate.int (7 : Int) = .int 7 :=
  ⟨by decide, serialize_injective.1 (.int 7) (.int 7) (by decide) (by decide) rfl⟩

/-! ## Parser lemmas -/

theorem dropWhile_false {p : Char → Bool} (cs : List Char)
    (h : ∀ c ∈ cs, p c = false) : cs.dropWhile p = cs := by
  cases cs with
  | nil => rfl
  | cons a l =>
      rw [List.dropWhile_cons]
      simp [h a (List.mem_cons_self a l)]

theorem stripSpaces_id (cs : List Char) (h : ∀ c ∈ cs, pySpace c = false) :
    stripSpaces cs = cs := by
  unfold stripSpaces
  rw [dropWhile_false cs h]
  rw [dropWhile_false cs.reverse (fun c hc => h c (List.mem_reverse.mp hc))]
  exact List.reverse_reverse cs

theorem digit_not_space (c : Char) (h : isAsciiDigit c = true) :
    pySpace c = false := by
  simp only [isAsciiDigit, Bool.and_eq_true, decide_eq_true_eq] at h
  simp only [pySpace, Bool.or_eq_false_iff, Bool.and_eq_false_iff,
    decide_eq_false_iff_not]
  omega

theorem digitVal_digit (c : Char) (h : isAsciiDigit c = true) :
    digitVal 10 c = some (c.toNat - 48) := by
  simp only [isAsciiDigit, Bool.and_eq_true, decide_eq_true_eq] at h
  unfold digitVal
  rw [if_pos ⟨h.1, h.2, by omega⟩]

theorem digit_ne_underscore (c : Char) (h : isAsciiDigit c = true) :
    c ≠ '_' := by
  intro hc
  subst hc
  simp [isAsciiDigit] at h

theorem digitsLoop_digits (cs : List Char) (acc : Nat)
    (h : cs.all isAsciiDigit = true) :
    digitsLoop 10 cs acc =
      some (cs.foldl (fun a c => a * 10 + (c.toNat - 48)) acc) := by
  induction cs generalizing acc with
  | nil => rfl
  | cons c rest ih =>
      simp only [List.all_cons, Bool.and_eq_true] at h
      unfold digitsLoop
      rw [if_neg (digit_ne_underscore c h.1), digitVal_digit c h.1]
      show digitsLoop 10 rest (acc * 10 + (c.toNat - 48)) = _
      rw [ih (acc * 10 + (c.toNat - 48)) h.2]
      simp [List.foldl_cons]

theorem pyIntDigits_digits (cs : List Char) (hne : cs ≠ [])
    (h : cs.all isAsciiDigit = true) :
    pyIntDigits 10 cs = some (natOfDigits cs) := by
  cases cs with
  | nil => exact absurd rfl hne
  | cons c rest =>
      simp only [List.all_cons, Bool.and_eq_true] at h
      unfold pyIntDigits
      show (match digitVal 10 c with
            | some d => digitsLoop 10 rest d
            | none => none) = _
      rw [digitVal_digit c h.1]
      show digitsLoop 10 rest (c.toNat - 48) = _
      rw [digitsLoop_digits rest (c.toNat - 48) h.2]
      unfold natOfDigits
      rw [List.foldl_cons]
      norm_num

theorem pyIntL_digits (cs : List Char) (hne : cs ≠ [])
    (h : cs.all isAsciiDigit = true) :
    pyIntL 10 cs = .ok ((natOfDigits cs : Int)) := by
  have hall : ∀ c ∈ cs, isAsciiDigit c = true := by
    intro c hc
    exact List.all_eq_true.mp h c hc
  unfold pyIntL
  rw [stripSpaces_id cs (fun c hc => digit_not_space c (hall c hc))]
  split
  · exfalso
    have h2 := hall '+' (by simp)
    simp [isAsciiDigit] at h2
  · exfalso
    have h2 := hall '-' (by simp)
    simp [isAsciiDigit] at h2
  · rw [pyIntDigits_digits cs hne h]

theorem pyIntL_error_shape (base : Nat) (cs : List Char) (e : PyError)
    (h : pyIntL base cs = .error e) : e = .intLiteral base (String.mk cs) := by
  unfold pyIntL at h
  split at h
  all_goals split at h
  all_goals first
    | exact Except.noConfusion h
    | (injection h with h'; exact h'.symm)

theorem parse_immediate0_digits (cs : List Char) (hne : cs ≠ [])
    (h : cs.all isAsciiDigit = true) :
    parse_immediate0 cs =
      (if (natOfDigits cs : Int) < 0 ∨ (natOfDigits cs : Int) > 2 ^ 62 - 1
       then .error .rangeError else .ok (.int (natOfDigits cs))) := by
  have hall : ∀ c ∈ cs, isAsciiDigit c = true := by
    intro c hc
    exact List.all_eq_true.mp h c hc
  unfold parse_immediate0
  rw [if_neg (show ¬(cs = ['#', 'f'] ∨ cs = ['#', 'F']) from by
    rintro (rfl | rfl) <;> exact absurd h (by decide))]
  rw [if_neg (show ¬(cs = ['#', 't'] ∨ cs = ['#', 'T']) from by
    rintro (rfl | rfl) <;> exact absurd h (by decide))]
  rw [if_neg (show ¬cs = ['N', 'U', 'L', 'L'] from by
    rintro rfl
    exact absurd h (by decide))]
  rw [if_neg (show ¬cs = ['U', 'N', 'S', 'P', 'E', 'C', 'I', 'F', 'I', 'E', 'D'] from by
    rintro rfl
    exact absurd h (by decide))]
  rw [if_pos (show cs ≠ [] ∧ cs.all isAsciiDigit = true from ⟨hne, h⟩)]
  rw [pyIntL_digits cs hne h]

/-- C6: parsing `"4611686018427387903"` (= `2^62 - 1`) yields that Integer;
parsing `"4611686018427387904"` (= `2^62`) raises RangeError; in general an
ASCII decimal digit string parses to its value exactly when the value is at
most `2^62 - 1` and is rejected with RangeError (never truncated)
otherwise. -/
theorem integer_boundary :
    parse_immediate "4611686018427387903" = .ok (.int (2 ^ 62 - 1)) ∧
    parse_immediate "4611686018427387904" = .error .rangeError ∧
    ∀ s : String, s.toList ≠ [] → s.toList.all isAsciiDigit = true →
      ((natOfDigits s.toList : Int) ≤ 2 ^ 62 - 1 →
          parse_immediate s = .ok (.int (natOfDigits s.toList))) ∧
      ((natOfDigits s.toList : Int) > 2 ^ 62 - 1 →
          parse_immediate s = .error .rangeError) := by
  refine ⟨by decide, by decide, ?_⟩
  intro s hne h
  constructor
  · intro hle
    unfold parse_immediate
    rw [parse_immediate0_digits _ hne h, if_neg (by omega)]
  · intro hgt
    unfold parse_immediate
    rw [parse_immediate0_digits _ hne h, if_pos (by omega)]

/-- C6 witness: the general digit-string clause applied at `"12"`. -/
theorem integer_boundary_witness :
    ("12".toList ≠ [] ∧ "12".toList.all isAsciiDigit = true ∧
      (natOfDigits "12".toList : Int) ≤ 2 ^ 62 - 1) ∧
    parse_immediate "12" = .ok (.int (natOfDigits "12".toList)) :=
  ⟨⟨by decide, by decide, by decide⟩,
   (integer_boundary.2.2 "12" (by decide) (by decide)).1 (by decide)⟩

/-- C7 counterexample: the token `"#\\x+f"` has exactly three characters
after the `"#\\"` prefix, the first is `x`, and `'+'` is not a hexadecimal
digit — per the claim it must not parse to a Character — yet it parses to
Character 15, because the source never checks hex-digitness and Python
`int("+f", 16)` accepts the sign. -/
theorem char_form_plus_sign :
    digitVal 16 '+' = none ∧ parse_immediate "#\\x+f" = .ok (.char 15) := by
  constructor <;> decide

/-- C7 (amended): the four concrete examples hold, and a token
`"#\\" ++ t` parses to a Character exactly when either `t` is one ASCII
character, or `t` is three ASCII characters, the first is `x`, and Python
base-16 integer conversion of the last two succeeds with a codepoint `chr`
accepts (two hex digits, or a sign or whitespace with one hex digit). -/
theorem char_forms_amended :
    parse_immediate "#\\a" = .ok (.char 97) ∧
    parse_immediate "#\\x41" = .ok (.char 0x41) ∧
    parse_immediate "#\\ab" = .error (.formatCharConst "#\\ab") ∧
    parse_immediate "#\\x4" = .error (.formatCharConst "#\\x4") ∧
    ∀ t : List Char,
      (∃ c, parse_immediate0 ('#' :: '\\' :: t) = .ok (.char c)) ↔
        ((t.length = 1 ∧ t.all isAsciiChar = true) ∨
         (t.length = 3 ∧ t.headD ' ' = 'x' ∧ t.all isAsciiChar = true ∧
          ∃ n : Int, pyIntL 16 (t.drop 1) = .ok n ∧ 0 ≤ n ∧ n ≤ 0x10FFFF)) := by
  refine ⟨by decide, by decide, by decide, by decide, ?_⟩
  intro t
  have hred : parse_immediate0 ('#' :: '\\' :: t) =
      (if t.length = 1 ∧ t.all isAsciiChar then
        Except.ok (.char ((t.headD ' ').toNat))
      else if t.length = 3 ∧ t.headD ' ' = 'x' ∧ t.all isAsciiChar then
        match pyIntL 16 (t.drop 1) with
        | .ok n =>
            match pyChr n with
            | .ok cp => .ok (.char cp)
            | .error e => .error e
        | .error e => .error e
      else .error (.formatCharConst (String.mk ('#' :: '\\' :: t)))) := rfl
  rw [hred]
  by_cases hc1 : t.length = 1 ∧ t.all isAsciiChar = true
  · rw [if_pos hc1]
    constructor
    · intro _
      exact Or.inl hc1
    · intro _
      exact ⟨(t.headD ' ').toNat, rfl⟩
  · rw [if_neg hc1]
    by_cases hc2 : t.length = 3 ∧ t.headD ' ' = 'x' ∧ t.all isAsciiChar = true
    · rw [if_pos hc2]
      cases hpy : pyIntL 16 (t.drop 1) with
      | ok n =>
          show (∃ c, (match pyChr n with
                      | Except.ok cp => Except.ok (Immediate.char cp)
                      | Except.error e => Except.error e) = .ok (.char c)) ↔ _
          by_cases hb : 0 ≤ n ∧ n ≤ 0x10FFFF
          · have hchr : pyChr n = .ok n.toNat := by
              unfold pyChr
              rw [if_pos hb]
            rw [hchr]
            constructor
            · intro _
              exact Or.inr ⟨hc2.1, hc2.2.1, hc2.2.2, n, rfl, hb.1, hb.2⟩
            · intro _
              exact ⟨n.toNat, rfl⟩
          · have hchr : pyChr n = .error .chrValue := by
              unfold pyChr
              rw [if_neg hb]
            rw [hchr]
            constructor
            · rintro ⟨c, hc⟩
              exact Except.noConfusion hc
            · rintro (h | ⟨_, _, _, n', hpy', hb1, hb2⟩)
              · exact absurd h hc1
              · injection hpy' with h'
                exact absurd ⟨h' ▸ hb1, h' ▸ hb2⟩ hb
      | error e =>
          constructor
          · rintro ⟨c, hc⟩
            exact Except.noConfusion hc
          · rintro (h | ⟨_, _, _, n', hpy', _, _⟩)
            · exact absurd h hc1
            · exact Except.noConfusion hpy'
    · rw [if_neg hc2]
      constructor
      · rintro ⟨c, hc⟩
        exact Except.noConfusion hc
      · rintro (h | ⟨h3, hx, ha, _⟩)
        · exact absurd h hc1
        · exact absurd ⟨h3, hx, ha⟩ hc2

/-- C7 witness: the amended characterization applied at `t = ['a']`. -/
theorem char_forms_amended_witness :
    ∃ c, parse_immediate0 ['#', '\\', 'a'] = .ok (.char c) :=
  (char_forms_amended.2.2.2.2 ['a']).mpr (Or.inl ⟨rfl, by decide⟩)

/-- C8 counterexample: `"#\\xzz"` fails, but with the `ValueError` raised
by `int("zz", 16)` (invalid literal), not with the character-constant
FormatError the claim names. -/
theorem char_hex_bad_digit :
    parse_immediate "#\\xzz" = .error (.intLiteral 16 "zz") ∧
    parse_immediate "#\\xzz" ≠ .error (.formatCharConst "#\\xzz") := by
  constructor <;> decide

/-- C8 (amended): for a token of shape `"#\\x" ++ [h1, h2]` with ASCII
`h1 h2` on which base-16 integer conversion fails, Parse fails with the
invalid-literal error of `int(_, 16)` naming the two characters — not with
the character-constant FormatError. -/
theorem char_hex_error_amended (h1 h2 : Char)
    (ha1 : isAsciiChar h1 = true) (ha2 : isAsciiChar h2 = true)
    (herr : ∃ e, pyIntL 16 [h1, h2] = .error e) :
    parse_immediate0 ['#', '\\', 'x', h1, h2] =
      .error (.intLiteral 16 (String.mk [h1, h2])) := by
  obtain ⟨e, he⟩ := herr
  have hshape := pyIntL_error_shape 16 [h1, h2] e he
  have hred : parse_immediate0 ['#', '\\', 'x', h1, h2] =
      (if ('x' :: h1 :: h2 :: []).length = 3 ∧
          ('x' :: h1 :: h2 :: []).headD ' ' = 'x' ∧
          ('x' :: h1 :: h2 :: []).all isAsciiChar then
        match pyIntL 16 [h1, h2] with
        | .ok n =>
            match pyChr n with
            | .ok cp => .ok (.char cp)
            | .error e2 => .error e2
        | .error e2 => .error e2
      else .error (.formatCharConst (String.mk ['#', '\\', 'x', h1, h2]))) := rfl
  rw [hred]
  have hall : ('x' :: h1 :: h2 :: []).all isAsciiChar = true := by
    simp only [List.all_cons, List.all_nil, ha1, ha2, Bool.and_true]
    decide
  rw [if_pos ⟨rfl, rfl, hall⟩, he, hshape]

/-- C8 witness: the amended error statement at `h1 = h2 = 'z'`. -/
theorem char_hex_error_amended_witness :
    (isAsciiChar 'z' = true ∧ (∃ e, pyIntL 16 ['z', 'z'] = .error e)) ∧
    parse_immediate0 ['#', '\\', 'x', 'z', 'z'] =
      .error (.intLiteral 16 (String.mk ['z', 'z'])) :=
  ⟨⟨by decide, ⟨.intLiteral 16 (String.mk ['z', 'z']), by decide⟩⟩,
   char_hex_error_amended 'z' 'z' (by decide) (by decide)
     ⟨.intLiteral 16 (String.mk ['z', 'z']), by decide⟩⟩

/-! ## Assembler lemmas -/

theorem isOk_exists {e : Except PyError (List Nat)} (h : e.isOk = true) :
    ∃ bs, e = .ok bs := by
  cases e with
  | ok b => exact ⟨b, rfl⟩
  | error err => exact Bool.noConfusion h

theorem intToBytes8_ok (n : Int) (bs : List Nat) (h : intToBytes8 n = .ok bs) :
    bs = toLE8 n.toNat := by
  unfold intToBytes8 at h
  split at h
  · injection h with h'
    exact h'.symm
  · exact Except.noConfusion h

theorem serialize_ok_length (v : Immediate) (bs : List Nat)
    (h : serialize_immediate v = .ok bs) : bs.length = 8 := by
  unfold serialize_immediate at h
  rw [intToBytes8_ok (serialize_word v) bs h]
  exact toLE8_length _

theorem rawIns_ok_length (op : Nat) (v : String) (bs : List Nat)
    (h : rawIns op v = .ok bs) : bs.length = 16 := by
  revert h
  unfold rawIns
  cases hn : pyIntL 10 v.toList with
  | ok n =>
      show (match intToBytes8 n with
            | .ok b => Except.ok (toLE8 op ++ b)
            | .error e => Except.error e) = .ok bs → _
      cases hb : intToBytes8 n with
      | ok b =>
          show Except.ok (toLE8 op ++ b) = Except.ok bs → _
          intro h
          injection h with h'
          rw [← h', intToBytes8_ok n b hb]
          simp [List.length_append, toLE8_length]
      | error e =>
          intro h
          exact Except.noConfusion h
  | error e =>
      intro h
      exact Except.noConfusion h

theorem asmTok2_load (line v : String) (bs : List Nat)
    (h : asmTok2 line "LOAD" v = .ok bs) : bs.length = 16 := by
  revert h
  unfold asmTok2
  rw [if_pos rfl]
  cases hp : parse_immediate v with
  | ok imm =>
      show (match serialize_immediate imm with
            | .ok b => Except.ok (toLE8 0x10AD000 ++ b)
            | .error e => Except.error e) = .ok bs → _
      cases hs : serialize_immediate imm with
      | ok b =>
          show Except.ok (toLE8 0x10AD000 ++ b) = Except.ok bs → _
          intro h
          injection h with h'
          rw [← h']
          simp [List.length_append, toLE8_length, serialize_ok_length _ _ hs]
      | error e =>
          intro h
          exact Except.noConfusion h
  | error e =>
      intro h
      exact Except.noConfusion h

theorem asmTok1_ok_length (line m : String) (bs : List Nat)
    (h : asmTok1 line m = .ok bs) : bs.length = 16 := by
  by_cases hm : m ∈ ["FORGET", "ADD1", "SUB1", "ZEROP", "STRINGREF",
      "STRINGSET", "INTEGERP", "BOOLEANP", "CHARP", "NULLP", "NOT",
      "INTTOCHAR", "CHARTOINT", "CONS", "CAR", "CDR"]
  · fin_cases hm <;> (injection h with h'; rw [← h']; rfl)
  · simp only [List.mem_cons, List.not_mem_nil, or_false, not_or] at hm
    obtain ⟨e1, e2, e3, e4, e5, e6, e7, e8, e9, e10, e11, e12, e13, e14,
      e15, e16⟩ := hm
    unfold asmTok1 at h
    rw [if_neg e1, if_neg e2, if_neg e3, if_neg e4, if_neg e5, if_neg e6,
      if_neg e7, if_neg e8, if_neg e9, if_neg e10, if_neg e11, if_neg e12,
      if_neg e13, if_neg e14, if_neg e15, if_neg e16] at h
    exact Except.noConfusion h

theorem asmTok2_ok_length (line m v : String) (bs : List Nat)
    (h : asmTok2 line m v = .ok bs) : bs.length = 16 := by
  by_cases hL : m = "LOAD"
  · subst hL
    exact asmTok2_load line v bs h
  · by_cases hm : m ∈ ["JUMP", "CJUMP", "GET", "ADD", "SUB", "MUL", "LT",
        "EQ", "EQP", "STRING", "STRINGAPPEND", "FALL"]
    · fin_cases hm <;> exact rawIns_ok_length _ _ _ h
    · simp only [List.mem_cons, List.not_mem_nil, or_false, not_or] at hm
      obtain ⟨e1, e2, e3, e4, e5, e6, e7, e8, e9, e10, e11, e12⟩ := hm
      unfold asmTok2 at h
      rw [if_neg hL, if_neg e1, if_neg e2, if_neg e3, if_neg e4, if_neg e5,
        if_neg e6, if_neg e7, if_neg e8, if_neg e9, if_neg e10, if_neg e11,
        if_neg e12] at h
      exact Except.noConfusion h

theorem asmToks_ok_length (line : String) (toks : List String) (bs : List Nat)
    (h : asmToks line toks = .ok bs) : bs.length = 16 := by
  rcases toks with _ | ⟨a, _ | ⟨b, _ | ⟨c, rest⟩⟩⟩
  · exact Except.noConfusion h
  · exact asmTok1_ok_length line a bs h
  · exact asmTok2_ok_length line a b bs h
  · exact Except.noConfusion h

theorem mainRun_all_ok (lines : List String)
    (h : ∀ l ∈ lines, isBlank l = false → ∃ bs, asmLine l = .ok bs) :
    mainRun lines =
      (((lines.filter fun l => !isBlank l).map emitted).flatten ++ terminator,
        none) := by
  induction lines with
  | nil => rfl
  | cons l ls ih =>
      have ih' := ih fun x hx hbx => h x (List.mem_cons_of_mem l hx) hbx
      by_cases hb : isBlank l = true
      · unfold mainRun
        rw [if_pos hb, ih']
        simp [List.filter_cons, hb]
      · obtain ⟨bs, hbs⟩ := h l (List.mem_cons_self l ls) (by simpa using hb)
        unfold mainRun
        rw [if_neg hb, hbs]
        show (bs ++ (mainRun ls).1, (mainRun ls).2) = _
        rw [ih']
        simp only [List.filter_cons]
        rw [if_pos (by simpa using hb)]
        have he : emitted l = bs := by
          unfold emitted
          rw [hbs]
        simp [he, List.append_assoc]

theorem sum_const_16 (xs : List String) (f : String → Nat)
    (h : ∀ x ∈ xs, f x = 16) : (xs.map f).sum = 16 * xs.length := by
  induction xs with
  | nil => rfl
  | cons a l ih =>
      rw [List.map_cons, List.sum_cons, h a (List.mem_cons_self a l),
        ih fun x hx => h x (List.mem_cons_of_mem a hx), List.length_cons]
      ring

/-- C3: N non-blank lines that all process successfully produce exactly
N+1 16-byte instructions: the lines' instructions in input order followed
by the terminator; blank lines contribute nothing; the empty input
produces exactly the terminator. -/
theorem assemble_order_count (lines : List String)
    (h : ∀ l ∈ lines, isBlank l = false → (asmLine l).isOk = true) :
    (mainRun lines).2 = none ∧
    (mainRun lines).1 =
      ((lines.filter fun l => !isBlank l).map emitted).flatten ++ terminator ∧
    (∀ l ∈ lines.filter fun l => !isBlank l, (emitted l).length = 16) ∧
    terminator.length = 16 ∧
    (mainRun lines).1.length =
      16 * ((lines.filter fun l => !isBlank l).length + 1) ∧
    mainRun [] = (terminator, none) := by
  have h' : ∀ l ∈ lines, isBlank l = false → ∃ bs, asmLine l = .ok bs :=
    fun l hl hb => isOk_exists (h l hl hb)
  have key := mainRun_all_ok lines h'
  have hlen : ∀ l ∈ lines.filter fun l => !isBlank l, (emitted l).length = 16 := by
    intro l hl
    rw [List.mem_filter] at hl
    obtain ⟨bs, hbs⟩ := h' l hl.1 (by simpa using hl.2)
    have he : emitted l = bs := by
      unfold emitted
      rw [hbs]
    rw [he]
    exact asmToks_ok_length l (pySplit l) bs hbs
  refine ⟨by rw [key], by rw [key], hlen, rfl, ?_, rfl⟩
  rw [key]
  simp only [List.length_append, List.length_flatten, List.map_map]
  have hsum := sum_const_16 (lines.filter fun l => !isBlank l)
    (fun l => (emitted l).length) hlen
  rw [show (List.length ∘ emitted) = fun l => (emitted l).length from rfl, hsum]
  show 16 * _ + 8 + 8 = _
  ring

/-- C3 witness: the order/count theorem on the lines `ADD1`, a blank line,
and `JUMP 3`: two instructions plus the terminator, 48 bytes. -/
theorem assemble_order_count_witness :
    (∀ l ∈ ["ADD1\n", "  \n", "JUMP 3\n"], isBlank l = false →
      (asmLine l).isOk = true) ∧
    (mainRun ["ADD1\n", "  \n", "JUMP 3\n"]).1.length = 16 * (2 + 1) := by
  refine ⟨by decide, ?_⟩
  have h := (assemble_order_count ["ADD1\n", "  \n", "JUMP 3\n"]
    (by decide)).2.2.2.2.1
  rw [h]
  decide

/-- C4 counterexample: on input `ADD1` then `FOO 1` the run fails, yet the
bytes of the successfully processed `ADD1` instruction have already been
written to standard output — the failing run's output is not empty. -/
theorem partial_output_emitted :
    (mainRun ["ADD1\n", "FOO 1\n"]).2.isSome = true ∧
    (mainRun ["ADD1\n", "FOO 1\n"]).1 ≠ [] := by
  constructor <;> decide

/-- C4 (amended): when a line fails, the run aborts with that error before
writing anything for the failing or later lines and without the
terminator, but the instructions of the earlier successfully processed
lines have already been written; output ends with the terminator only on
full success. -/
theorem abort_preserves_prior_output (pre : List String) (l : String)
    (post : List String) (e : PyError)
    (hpre : ∀ p ∈ pre, isBlank p = false → (asmLine p).isOk = true)
    (hl : isBlank l = false) (herr : asmLine l = .error e) :
    mainRun (pre ++ l :: post) =
      (((pre.filter fun x => !isBlank x).map emitted).flatten, some e) := by
  induction pre with
  | nil =>
      simp only [List.nil_append]
      unfold mainRun
      rw [if_neg (by simp [hl]), herr]
      rfl
  | cons p ps ih =>
      have ih' := ih fun x hx hbx => hpre x (List.mem_cons_of_mem p hx) hbx
      by_cases hbp : isBlank p = true
      · show mainRun (p :: (ps ++ l :: post)) = _
        unfold mainRun
        rw [if_pos hbp, ih']
        simp [List.filter_cons, hbp]
      · obtain ⟨bs, hbs⟩ :=
          isOk_exists (hpre p (List.mem_cons_self p ps) (by simpa using hbp))
        show mainRun (p :: (ps ++ l :: post)) = _
        unfold mainRun
        rw [if_neg hbp, hbs]
        show (bs ++ (mainRun (ps ++ l :: post)).1, (mainRun (ps ++ l :: post)).2) = _
        rw [ih']
        simp only [List.filter_cons]
        rw [if_pos (by simpa using hbp)]
        have he : emitted p = bs := by
          unfold emitted
          rw [hbs]
        simp [he]

/-- C4 witness: the amended theorem on `ADD1`, failing `FOO 1`, unreached
`CAR`. -/
theorem abort_preserves_prior_output_witness :
    ((∀ p ∈ ["ADD1\n"], isBlank p = false → (asmLine p).isOk = true) ∧
      isBlank "FOO 1\n" = false ∧
      asmLine "FOO 1\n" = .error (.unrecognized "FOO 1\n")) ∧
    mainRun (["ADD1\n"] ++ "FOO 1\n" :: ["CAR\n"]) =
      (((["ADD1\n"].filter fun x => !isBlank x).map emitted).flatten,
        some (.unrecognized "FOO 1\n")) :=
  ⟨⟨by decide, by decide, by decide⟩,
   abort_preserves_prior_output ["ADD1\n"] "FOO 1\n" ["CAR\n"]
     (.unrecognized "FOO 1\n") (by decide) (by decide) (by decide)⟩

/-- C5 counterexample: `"-1"` is a valid signed base-10 integer literal,
yet `JUMP -1` does not assemble — `(-1).to_bytes(8, "little")` raises
OverflowError, which is neither success nor the FormatError the claim
reserves for invalid literals. -/
theorem raw_operand_negative_fails :
    pyIntL 10 "-1".toList = .ok (-1) ∧
    asmLine "JUMP -1\n" = .error .overflow := by
  constructor <;> decide

/-- C5 (amended): for every raw-integer mnemonic, a valid base-10 literal
operand assembles to the opcode plus the value as 8 little-endian bytes
exactly when the value lies in `[0, 2^64)` (so it is indeed not
range-checked against `2^62`); a valid literal outside that range raises
OverflowError; an invalid literal propagates the FormatError of `int`. -/
theorem raw_integer_operand (m : String) (op : Nat)
    (hm : (m, op) ∈ rawIntTable) (line v : String) :
    (∀ n : Int, pyIntL 10 v.toList = .ok n →
       (0 ≤ n ∧ n < 2 ^ 64 →
          asmToks line [m, v] = .ok (toLE8 op ++ toLE8 n.toNat)) ∧
       (n < 0 ∨ 2 ^ 64 ≤ n → asmToks line [m, v] = .error .overflow)) ∧
    (∀ e, pyIntL 10 v.toList = .error e → asmToks line [m, v] = .error e) := by
  have harm : asmToks line [m, v] = rawIns op v := by
    fin_cases hm <;> rfl
  rw [harm]
  constructor
  · intro n hn
    constructor
    · intro hb
      unfold rawIns
      rw [hn]
      show (match intToBytes8 n with
            | .ok b => Except.ok (toLE8 op ++ b)
            | .error e => Except.error e) = _
      unfold intToBytes8
      rw [if_pos hb]
    · intro hb
      unfold rawIns
      rw [hn]
      show (match intToBytes8 n with
            | .ok b => Except.ok (toLE8 op ++ b)
            | .error e => Except.error e) = _
      unfold intToBytes8
      rw [if_neg (by omega)]
  · intro e he
    unfold rawIns
    rw [he]

/-- C5 witness: `JUMP 3` assembles to opcode `0x70AD000` plus the 8-byte
little-endian 3. -/
theorem raw_integer_operand_witness :
    (("JUMP", 0x70AD000) ∈ rawIntTable ∧ pyIntL 10 "3".toList = .ok 3 ∧
      (0 : Int) ≤ 3 ∧ (3 : Int) < 2 ^ 64) ∧
    asmToks "JUMP 3" ["JUMP", "3"] = .ok (toLE8 0x70AD000 ++ toLE8 (3 : Int).toNat) :=
  ⟨⟨by decide, by decide, by decide, by decide⟩,
   ((raw_integer_operand "JUMP" 0x70AD000 (by decide) "JUMP 3" "3").1 3
     (by decide)).1 ⟨by decide, by decide⟩⟩

/-- C9: a non-blank line whose first token and token count match no
(mnemonic, arity) entry of the Mnemonic Table fails with the
UnrecognizedInstructionError carrying the offending line, and that failure
aborts the whole run immediately. -/
theorem unknown_mnemonic (line : String)
    (h : ∀ ma ∈ mnemonicTable,
        ¬((pySplit line).length = ma.2 ∧ (pySplit line).headD "" = ma.1)) :
    asmLine line = .error (.unrecognized line) ∧
    (isBlank line = false → ∀ rest,
      mainRun (line :: rest) = ([], some (.unrecognized line))) := by
  have key : asmLine line = .error (.unrecognized line) := by
    unfold asmLine
    revert h
    generalize pySplit line = toks
    intro h
    rcases toks with _ | ⟨a, _ | ⟨b, _ | ⟨c, rest⟩⟩⟩
    · rfl
    · show asmTok1 line a = _
      unfold asmTok1
      rw [if_neg (show ¬(a = "FORGET") from fun hm => h ("FORGET", 1) (by decide) ⟨rfl, hm⟩),
          if_neg (show ¬(a = "ADD1") from fun hm => h ("ADD1", 1) (by decide) ⟨rfl, hm⟩),
          if_neg (show ¬(a = "SUB1") from fun hm => h ("SUB1", 1) (by decide) ⟨rfl, hm⟩),
          if_neg (show ¬(a = "ZEROP") from fun hm => h ("ZEROP", 1) (by decide) ⟨rfl, hm⟩),
          if_neg (show ¬(a = "STRINGREF") from fun hm => h ("STRINGREF", 1) (by decide) ⟨rfl, hm⟩),
          if_neg (show ¬(a = "STRINGSET") from fun hm => h ("STRINGSET", 1) (by decide) ⟨rfl, hm⟩),
          if_neg (show ¬(a = "INTEGERP") from fun hm => h ("INTEGERP", 1) (by decide) ⟨rfl, hm⟩),
          if_neg (show ¬(a = "BOOLEANP") from fun hm => h ("BOOLEANP", 1) (by decide) ⟨rfl, hm⟩),
          if_neg (show ¬(a = "CHARP") from fun hm => h ("CHARP", 1) (by decide) ⟨rfl, hm⟩),
          if_neg (show ¬(a = "NULLP") from fun hm => h ("NULLP", 1) (by decide) ⟨rfl, hm⟩),
          if_neg (show ¬(a = "NOT") from fun hm => h ("NOT", 1) (by decide) ⟨rfl, hm⟩),
          if_neg (show ¬(a = "INTTOCHAR") from fun hm => h ("INTTOCHAR", 1) (by decide) ⟨rfl, hm⟩),
          if_neg (show ¬(a = "CHARTOINT") from fun hm => h ("CHARTOINT", 1) (by decide) ⟨rfl, hm⟩),
          if_neg (show ¬(a = "CONS") from fun hm => h ("CONS", 1) (by decide) ⟨rfl, hm⟩),
          if_neg (show ¬(a = "CAR") from fun hm => h ("CAR", 1) (by decide) ⟨rfl, hm⟩),
          if_neg (show ¬(a = "CDR") from fun hm => h ("CDR", 1) (by decide) ⟨rfl, hm⟩)]
    · show asmTok2 line a b = _
      unfold asmTok2
      rw [if_neg (show ¬(a = "LOAD") from fun hm => h ("LOAD", 2) (by decide) ⟨rfl, hm⟩),
          if_neg (show ¬(a = "JUMP") from fun hm => h ("JUMP", 2) (by decide) ⟨rfl, hm⟩),
          if_neg (show ¬(a = "CJUMP") from fun hm => h ("CJUMP", 2) (by decide) ⟨rfl, hm⟩),
          if_neg (show ¬(a = "GET") from fun hm => h ("GET", 2) (by decide) ⟨rfl, hm⟩),
          if_neg (show ¬(a = "ADD") from fun hm => h ("ADD", 2) (by decide) ⟨rfl, hm⟩),
          if_neg (show ¬(a = "SUB") from fun hm => h ("SUB", 2) (by decide) ⟨rfl, hm⟩),
          if_neg (show ¬(a = "MUL") from fun hm => h ("MUL", 2) (by decide) ⟨rfl, hm⟩),
          if_neg (show ¬(a = "LT") from fun hm => h ("LT", 2) (by decide) ⟨rfl, hm⟩),
          if_neg (show ¬(a = "EQ") from fun hm => h ("EQ", 2) (by decide) ⟨rfl, hm⟩),
          if_neg (show ¬(a = "EQP") from fun hm => h ("EQP", 2) (by decide) ⟨rfl, hm⟩),
          if_neg (show ¬(a = "STRING") from fun hm => h ("STRING", 2) (by decide) ⟨rfl, hm⟩),
          if_neg (show ¬(a = "STRINGAPPEND") from fun hm => h ("STRINGAPPEND", 2) (by decide) ⟨rfl, hm⟩),
          if_neg (show ¬(a = "FALL") from fun hm => h ("FALL", 2) (by decide) ⟨rfl, hm⟩)]
    · rfl
  refine ⟨key, ?_⟩
  intro hbl rest
  unfold mainRun
  rw [if_neg (by simp [hbl]), key]

/-- C9 witness: the line `FOO 1` matches no table entry and aborts the
run. -/
theorem unknown_mnemonic_witness :
    (∀ ma ∈ mnemonicTable,
      ¬((pySplit "FOO 1\n").length = ma.2 ∧
        (pySplit "FOO 1\n").headD "" = ma.1)) ∧
    asmLine "FOO 1\n" = .error (.unrecognized "FOO 1\n") ∧
    mainRun ["FOO 1\n"] = ([], some (.unrecognized "FOO 1\n")) :=
  ⟨by decide,
   (unknown_mnemonic "FOO 1\n" (by decide)).1,
   (unknown_mnemonic "FOO 1\n" (by decide)).2 (by decide) []⟩

end Scrop
